import Mathlib

/-!
Shallow embedding of the stock-reservation saga of the `task10_2d` backend
(order service and product service, `app/main.py` of each).

The product table is modelled as an association list from `product_id` to
`stock_quantity`; a fresh persistence session sees the committed rows and
accumulates uncommitted decrements, which `rollback` discards and `commit`
makes durable.  The body of `consume_order_placed_events` that runs for one
delivered message (decode, the `for ... else` deduction loop, publish,
commit/rollback) is translated function-by-function below.
-/

/-- One line item of an `order.placed` event payload: `{product_id, quantity}`. -/
structure Item where
  product_id : Nat
  quantity : Int
deriving Repr, DecidableEq

/-- The decoded JSON payload of an `order.placed` message.
`items = none` models a payload with no `"items"` key; `data.get("items", [])`
is `itemsOrDefault` below. -/
structure OrderPlacedPayload where
  order_id : Int
  items : Option (List Item)
deriving Repr, DecidableEq

/-- `data.get("items", [])` from the consumer body. -/
def OrderPlacedPayload.itemsOrDefault (pl : OrderPlacedPayload) : List Item :=
  pl.items.getD []

/-- The product table / session view: `product_id ↦ stock_quantity`. -/
abbrev StockDb := List (Nat × Int)

/-- `session.query(Product).filter(Product.product_id == pid).first()`:
the first row whose key matches, if any. -/
def getStock : StockDb → Nat → Option Int
  | [], _ => none
  | (p, s) :: rest, pid => if p = pid then some s else getStock rest pid

/-- `product.stock_quantity = q` on the first row whose key matches
(a no-op when the product is absent, as in the ORM session). -/
def setStock : StockDb → Nat → Int → StockDb
  | [], _, _ => []
  | (p, s) :: rest, pid, q =>
    if p = pid then (p, q) :: rest else (p, s) :: setStock rest pid q

/-- A message handed to `publish_event(routing_key, {"order_id": order_id})`. -/
structure RoutedMessage where
  routing_key : String
  order_id : Int
deriving Repr, DecidableEq

/-- Everything observable about processing one `order.placed` message:
the committed table afterwards, the events published (in order), the product
ids looked up (in order), and whether `session.commit()` ran. -/
structure ConsumeOutcome where
  db : StockDb
  published : List RoutedMessage
  lookups : List Nat
  committed : Bool
deriving Repr, DecidableEq

/-- The `for item in items: ... else: ...` loop of
`consume_order_placed_events`.  `c` is the committed table (what a rollback
restores); `session` is the in-session view with the decrements applied so
far.  A missing product or `stock_quantity < quantity` publishes the failure
event, rolls back and breaks; falling off the end of the loop commits and
publishes the success event. -/
def deductLoop (c session : StockDb) (oid : Int) : List Item → ConsumeOutcome
  | [] =>
    { db := session
      published := [⟨"product.stock.deducted", oid⟩]
      lookups := []
      committed := true }
  | item :: rest =>
    match getStock session item.product_id with
    | none =>
      { db := c
        published := [⟨"product.stock.deduction.failed", oid⟩]
        lookups := [item.product_id]
        committed := false }
    | some stock =>
      if stock < item.quantity then
        { db := c
          published := [⟨"product.stock.deduction.failed", oid⟩]
          lookups := [item.product_id]
          committed := false }
      else
        let r := deductLoop c (setStock session item.product_id (stock - item.quantity)) oid rest
        { r with lookups := item.product_id :: r.lookups }

/-- Processing of one delivered message inside `consume_order_placed_events`:
decode the payload, open a fresh session on the committed table, run the
deduction loop. -/
def consume_order_placed_events (db : StockDb) (pl : OrderPlacedPayload) : ConsumeOutcome :=
  deductLoop db db pl.order_id pl.itemsOrDefault

/-- The success condition of the loop, read off the code: every item finds its
product and requests no more than the stock the session currently shows
(earlier items of the same message already deducted). -/
def sufficientStock (session : StockDb) : List Item → Bool
  | [] => true
  | item :: rest =>
    match getStock session item.product_id with
    | none => false
    | some stock =>
      !(stock < item.quantity) &&
        sufficientStock (setStock session item.product_id (stock - item.quantity)) rest

/-- Total quantity the items request for one product id. -/
def totalRequested (items : List Item) (pid : Nat) : Int :=
  items.foldr (fun it acc => if it.product_id = pid then it.quantity + acc else acc) 0

/-- The session view after deducting a list of items (meaningful when the
items all pass the stock check). -/
def applyDeductions (session : StockDb) : List Item → StockDb
  | [] => session
  | item :: rest =>
    match getStock session item.product_id with
    | none => session
    | some stock => applyDeductions (setStock session item.product_id (stock - item.quantity)) rest

/-- An item the loop would reject against the given session view. -/
def failsAt (session : StockDb) (item : Item) : Bool :=
  match getStock session item.product_id with
  | none => true
  | some stock => stock < item.quantity

/-- Every stock count in the table is non-negative. -/
def allNonneg (db : StockDb) : Bool :=
  db.all fun e => 0 ≤ e.2

/-! ### Event publisher (`publish_event` of each service)

Publishing has no observable effect other than the log lines written and the
messages handed to the exchange, and whether the call raises; `PublishOutcome`
records exactly those.  The exchange argument is the module-global
`rabbitmq_exchange`, `none` when no connection is established. -/

/-- Observable effects of one `publish_event` call. -/
structure PublishOutcome (α : Type) where
  logs : List String
  published : List (String × α)
  raised : Bool
deriving Repr, DecidableEq

namespace ProductService

/-- `publish_event` of the product service: `if not rabbitmq_exchange: return`
(no log line), else publish the message under the routing key. -/
def publish_event (exchange : Option Unit) (routing_key : String) (data : α) :
    PublishOutcome α :=
  match exchange with
  | none => { logs := [], published := [], raised := false }
  | some _ => { logs := [], published := [(routing_key, data)], raised := false }

end ProductService

namespace OrderService

/-- `publish_event` of the order service: logs "RabbitMQ not available" and
returns when no exchange is established, else publishes. -/
def publish_event (exchange : Option Unit) (routing_key : String) (message_data : α) :
    PublishOutcome α :=
  match exchange with
  | none => { logs := ["RabbitMQ not available"], published := [], raised := false }
  | some _ => { logs := [], published := [(routing_key, message_data)], raised := false }

end OrderService

/-! ### Broker connection manager (`connect_to_rabbitmq`, identical loop in
both services)

The loop `for _ in range(10)` tries to connect; a successful attempt declares
the durable direct exchange "ecomm_events" and returns `True`; a failed
attempt sleeps five seconds and retries; after the tenth failure the function
returns `False`.  `succeeds i` says whether attempt number `i` (0-based)
would succeed. -/

/-- The exchange declared on a successful connection attempt. -/
structure ExchangeDecl where
  name : String
  direct : Bool
  durable : Bool
deriving Repr, DecidableEq

/-- Observable result of `connect_to_rabbitmq`: the returned boolean, how many
attempts ran, the sleep durations (seconds) between attempts, and the exchange
declaration if one happened. -/
structure ConnectOutcome where
  success : Bool
  attempts : Nat
  delays : List Nat
  exchange : Option ExchangeDecl
deriving Repr, DecidableEq

/-- The retry loop with `n` remaining iterations, about to run attempt number
`start`. -/
def connectLoop (succeeds : Nat → Bool) (start : Nat) : Nat → ConnectOutcome
  | 0 => { success := false, attempts := 0, delays := [], exchange := none }
  | n + 1 =>
    if succeeds start then
      { success := true
        attempts := 1
        delays := []
        exchange := some { name := "ecomm_events", direct := true, durable := true } }
    else
      let r := connectLoop succeeds (start + 1) n
      { r with attempts := r.attempts + 1, delays := 5 :: r.delays }

/-- `connect_to_rabbitmq`: up to ten attempts starting from attempt 0. -/
def connect_to_rabbitmq (succeeds : Nat → Bool) : ConnectOutcome :=
  connectLoop succeeds 0 10

/-! ### Order service startup (`startup_event`)

`startup_event` runs `init_db()` (exiting the process when it raises), then,
when `connect_to_rabbitmq()` returns `True`, evaluates
`consume_stock_events(SessionLocal)` to create the consumer task.  The name
`consume_stock_events` must resolve in the module's global namespace; the
names bound at top level of `order_service/app/main.py` are listed below. -/

/-- Every name bound at module top level of `order_service/app/main.py`
(imports, module constants, globals, decorated functions). -/
def orderServiceTopLevelNames : List String :=
  ["asyncio", "json", "logging", "os", "sys", "time", "Decimal", "List",
   "Optional", "aio_pika", "httpx", "Depends", "FastAPI", "HTTPException",
   "Query", "Response", "status", "CORSMiddleware", "OperationalError",
   "Session", "joinedload", "Base", "SessionLocal", "engine", "get_db",
   "init_db", "Order", "OrderItem", "OrderCreate", "OrderItemResponse",
   "OrderResponse", "OrderStatusUpdate", "OrderUpdate", "logger",
   "CUSTOMER_SERVICE_URL", "PRODUCT_SERVICE_URL", "RABBITMQ_HOST",
   "RABBITMQ_PORT", "RABBITMQ_USER", "RABBITMQ_PASS", "rabbitmq_connection",
   "rabbitmq_channel", "rabbitmq_exchange", "app", "connect_to_rabbitmq",
   "close_rabbitmq_connection", "publish_event", "startup_event",
   "shutdown_event", "read_root", "health_check"]

/-- How the order service's startup handler can end. -/
inductive StartupResult where
  | ok
  | exited
  | nameError
deriving Repr, DecidableEq

/-- `startup_event` of the order service: `init_db()` failure exits the
process; a successful broker connection evaluates the bare name
`consume_stock_events`, which raises `NameError` unless the module binds it. -/
def order_startup_event (dbInitOk connectSucceeds : Bool) : StartupResult :=
  if !dbInitOk then .exited
  else if connectSucceeds then
    if orderServiceTopLevelNames.contains "consume_stock_events" then .ok
    else .nameError
  else .ok

/-! ### Claims -/

/-- **C10.** A consumed `order.placed` payload with no `"items"` key, or with
an empty items list, performs no lookup and no mutation, commits the empty
session, and publishes `product.stock.deducted` for its order id. -/
theorem empty_order_reported_deducted (db : StockDb) (oid : Int) :
    consume_order_placed_events db { order_id := oid, items := none } =
      { db := db, published := [⟨"product.stock.deducted", oid⟩],
        lookups := [], committed := true } ∧
    consume_order_placed_events db { order_id := oid, items := some [] } =
      { db := db, published := [⟨"product.stock.deducted", oid⟩],
        lookups := [], committed := true } := by
  exact ⟨rfl, rfl⟩

/-- **C9.** When `init_db` succeeds and the broker connection succeeds, the
order service's startup handler hits the unresolved name
`consume_stock_events` and raises `NameError`; it completes without error
exactly when the connection attempt fails. -/
theorem order_startup_name_error :
    order_startup_event true true = .nameError ∧
    order_startup_event true false = .ok ∧
    orderServiceTopLevelNames.contains "consume_stock_events" = false := by
  decide

/-- **C7, counterexample.** With no exchange established, the product
service's `publish_event` returns without writing any log line (its guard is
a bare `return`), refuting "is a no-op that logs an error" for that service:
the call's log output is empty, so no error is logged. -/
theorem product_publish_event_logs_nothing :
    (ProductService.publish_event (α := Int) none "product.stock.deducted" 42).logs = [] ∧
    (ProductService.publish_event (α := Int) none "product.stock.deducted" 42).raised =
      false := by
  exact ⟨rfl, rfl⟩

/-- **C7, amended.** With no exchange established, `publish_event` of either
service publishes nothing and does not raise; the order service variant logs
"RabbitMQ not available", the product service variant returns silently. -/
theorem publish_event_noop_without_exchange (routing_key : String) (data : α) :
    ProductService.publish_event none routing_key data =
      { logs := [], published := [], raised := false } ∧
    OrderService.publish_event none routing_key data =
      { logs := ["RabbitMQ not available"], published := [], raised := false } := by
  exact ⟨rfl, rfl⟩

/-! ### Association-list lemmas -/

/-- Reading back after an update: the updated key shows the new value when it
was present, every other key is untouched. -/
theorem getStock_setStock (db : StockDb) (pid : Nat) (v : Int) (q : Nat) :
    getStock (setStock db pid v) q =
      if q = pid then (getStock db pid).map (fun _ => v) else getStock db q := by
  induction db with
  | nil => by_cases h : q = pid <;> simp [setStock, getStock, h]
  | cons hd tl ih =>
    obtain ⟨k, s⟩ := hd
    by_cases hk : k = pid
    · subst hk
      by_cases hq : k = q
      · subst hq
        simp [setStock, getStock]
      · have hq2 : ¬ q = k := fun h => hq h.symm
        simp [setStock, getStock, hq, hq2]
    · by_cases hq : k = q
      · subst hq
        simp [setStock, getStock, hk]
      · simp [setStock, getStock, hk, hq, ih]

/-- When every item passes the stock check, the loop commits, publishes the
single success event, looks up exactly the listed items in order, and leaves
the session with all deductions applied. -/
theorem deductLoop_success (c session : StockDb) (oid : Int) (items : List Item)
    (h : sufficientStock session items = true) :
    (deductLoop c session oid items).committed = true ∧
    (deductLoop c session oid items).published = [⟨"product.stock.deducted", oid⟩] ∧
    (deductLoop c session oid items).lookups = items.map (·.product_id) ∧
    (deductLoop c session oid items).db = applyDeductions session items := by
  induction items generalizing session with
  | nil => simp [deductLoop, applyDeductions]
  | cons item rest ih =>
    cases hst : getStock session item.product_id with
    | none => simp [sufficientStock, hst] at h
    | some stock =>
      by_cases hlt : stock < item.quantity
      · simp [sufficientStock, hst, hlt] at h
      · have h2 : sufficientStock
            (setStock session item.product_id (stock - item.quantity)) rest = true := by
          simpa [sufficientStock, hst, hlt] using h
        have ihr := ih _ h2
        simp [deductLoop, applyDeductions, hst, hlt, ihr.1, ihr.2.1, ihr.2.2.1, ihr.2.2.2]

/-- Stock delta of a fully successful deduction: every product ends with its
initial stock minus the total its items requested; absent products stay
absent. -/
theorem getStock_applyDeductions (session : StockDb) (items : List Item)
    (h : sufficientStock session items = true) (q : Nat) :
    getStock (applyDeductions session items) q =
      (getStock session q).map fun s => s - totalRequested items q := by
  induction items generalizing session with
  | nil => cases hq : getStock session q <;> simp [applyDeductions, totalRequested, hq]
  | cons item rest ih =>
    cases hst : getStock session item.product_id with
    | none => simp [sufficientStock, hst] at h
    | some stock =>
      by_cases hlt : stock < item.quantity
      · simp [sufficientStock, hst, hlt] at h
      · have h2 : sufficientStock
            (setStock session item.product_id (stock - item.quantity)) rest = true := by
          simpa [sufficientStock, hst, hlt] using h
        have ihr := ih _ h2 
        rw [applyDeductions]
        rw [hst]
        rw [ihr, getStock_setStock]
        by_cases hq : q = item.product_id
        · subst hq
          simp [hst, totalRequested, sub_sub]
        · have hq2 : ¬ item.product_id = q := fun h => hq h.symm
          cases hgq : getStock session q <;> simp [totalRequested, hq, hq2, hgq]

/-- **C1.** A consumed `order.placed` event in which every item passes the
stock check is processed by committing every decrement and publishing exactly
one `product.stock.deducted` event carrying the event's order id; each
product's committed stock drops by exactly the total quantity the event's
items requested for it. -/
theorem stock_deduction_success (db : StockDb) (oid : Int) (items : List Item)
    (h : sufficientStock db items = true) :
    (consume_order_placed_events db { order_id := oid, items := some items }).published =
      [⟨"product.stock.deducted", oid⟩] ∧
    (consume_order_placed_events db { order_id := oid, items := some items }).committed = true ∧
    ∀ pid, getStock (consume_order_placed_events db
        { order_id := oid, items := some items }).db pid =
      (getStock db pid).map fun s => s - totalRequested items pid := by
  have hd := deductLoop_success db db oid items h
  have hu : consume_order_placed_events db { order_id := oid, items := some items } =
      deductLoop db db oid items := rfl
  rw [hu]
  refine ⟨hd.2.1, hd.1, fun pid => ?_⟩
  rw [hd.2.2.2]
  exact getStock_applyDeductions db items h pid

/-- **C1 witness.** The spec scenario: order 42 requests 3 of product 1 whose
stock is 5; the result is stock 2 and one `product.stock.deducted` event. -/
theorem stock_deduction_success_witness :
    sufficientStock [(1, 5)] [⟨1, 3⟩] = true ∧
    (consume_order_placed_events [(1, 5)]
      { order_id := 42, items := some [⟨1, 3⟩] }).published =
        [⟨"product.stock.deducted", 42⟩] ∧
    getStock (consume_order_placed_events [(1, 5)]
      { order_id := 42, items := some [⟨1, 3⟩] }).db 1 = some 2 := by
  refine ⟨by decide, (stock_deduction_success [(1, 5)] 42 [⟨1, 3⟩] (by decide)).1, ?_⟩
  exact ((stock_deduction_success [(1, 5)] 42 [⟨1, 3⟩] (by decide)).2.2 1).trans (by decide)

/-- When some item fails the stock check, the loop publishes the single
failure event, never commits, and the committed table is returned untouched
(rollback discards the decrements of earlier items of the same message). -/
theorem deductLoop_insufficient (c session : StockDb) (oid : Int) (items : List Item)
    (h : sufficientStock session items = false) :
    (deductLoop c session oid items).db = c ∧
    (deductLoop c session oid items).published = [⟨"product.stock.deduction.failed", oid⟩] ∧
    (deductLoop c session oid items).committed = false := by
  induction items generalizing session with
  | nil => simp [sufficientStock] at h
  | cons item rest ih =>
    cases hst : getStock session item.product_id with
    | none => simp [deductLoop, hst]
    | some stock =>
      by_cases hlt : stock < item.quantity
      · simp [deductLoop, hst, hlt]
      · have h2 : sufficientStock
            (setStock session item.product_id (stock - item.quantity)) rest = false := by
          simpa [sufficientStock, hst, hlt] using h
        have ihr := ih _ h2
        simp [deductLoop, hst, hlt, ihr.1, ihr.2.1, ihr.2.2]

/-- **C2.** A consumed `order.placed` event in which some item references a
missing product or requests more than the stock available to it leaves every
product's committed stock unchanged (earlier decrements of the same event are
rolled back), never commits, and publishes exactly one
`product.stock.deduction.failed` event carrying the event's order id. -/
theorem stock_deduction_all_or_nothing (db : StockDb) (oid : Int) (items : List Item)
    (h : sufficientStock db items = false) :
    (consume_order_placed_events db { order_id := oid, items := some items }).db = db ∧
    (consume_order_placed_events db { order_id := oid, items := some items }).published =
      [⟨"product.stock.deduction.failed", oid⟩] ∧
    (consume_order_placed_events db { order_id := oid, items := some items }).committed =
      false := by
  have hu : consume_order_placed_events db { order_id := oid, items := some items } =
      deductLoop db db oid items := rfl
  rw [hu]
  exact deductLoop_insufficient db db oid items h

/-- **C2 witness.** The spec's multi-item scenario: item 1 (3 of product 1,
stock 5) is sufficient, item 2 (5 of product 2, stock 1) is not; the table is
returned unchanged — product 1 keeps stock 5 — and one failure event carries
order id 43. -/
theorem stock_deduction_all_or_nothing_witness :
    sufficientStock [(1, 5), (2, 1)] [⟨1, 3⟩, ⟨2, 5⟩] = false ∧
    (consume_order_placed_events [(1, 5), (2, 1)]
      { order_id := 43, items := some [⟨1, 3⟩, ⟨2, 5⟩] }).db = [(1, 5), (2, 1)] ∧
    (consume_order_placed_events [(1, 5), (2, 1)]
      { order_id := 43, items := some [⟨1, 3⟩, ⟨2, 5⟩] }).published =
        [⟨"product.stock.deduction.failed", 43⟩] := by
  refine ⟨by decide, ?_, ?_⟩
  · exact (stock_deduction_all_or_nothing [(1, 5), (2, 1)] 43 [⟨1, 3⟩, ⟨2, 5⟩] (by decide)).1
  · exact (stock_deduction_all_or_nothing [(1, 5), (2, 1)] 43 [⟨1, 3⟩, ⟨2, 5⟩] (by decide)).2.1

/-- A table of non-negative stocks stays non-negative under an update with a
non-negative value. -/
theorem allNonneg_setStock (db : StockDb) (pid : Nat) (v : Int)
    (hdb : allNonneg db = true) (hv : 0 ≤ v) :
    allNonneg (setStock db pid v) = true := by
  induction db with
  | nil => simp [setStock, allNonneg]
  | cons hd tl ih =>
    obtain ⟨k, s⟩ := hd
    simp only [allNonneg, List.all_cons, Bool.and_eq_true] at hdb
    by_cases hk : k = pid
    · simp [setStock, allNonneg, hk, hv, hdb.2]
    · have ihr := ih (by simpa [allNonneg] using hdb.2)
      simp only [setStock, if_neg hk]
      simp [allNonneg, hdb.1]
      simpa [allNonneg] using ihr

/-- The deduction loop never drives a committed stock negative: any outcome's
table is non-negative whenever the committed table and the session view are. -/
theorem deductLoop_nonneg (c session : StockDb) (oid : Int) (items : List Item)
    (hc : allNonneg c = true) (hs : allNonneg session = true) :
    allNonneg (deductLoop c session oid items).db = true := by
  induction items generalizing session with
  | nil => simpa [deductLoop] using hs
  | cons item rest ih =>
    cases hst : getStock session item.product_id with
    | none => simpa [deductLoop, hst] using hc
    | some stock =>
      by_cases hlt : stock < item.quantity
      · simpa [deductLoop, hst, hlt] using hc
      · have hnn : 0 ≤ stock - item.quantity := sub_nonneg.mpr (not_lt.mp hlt)
        have hs2 : allNonneg (setStock session item.product_id (stock - item.quantity)) = true :=
          allNonneg_setStock session item.product_id _ hs hnn
        have ihr := ih _ hs2
        simpa [deductLoop, hst, hlt] using ihr

/-- **C3.** The invariant `stock_quantity >= 0` is preserved by the deduction
path: processing any consumed `order.placed` message on a table whose stocks
are all non-negative yields a table whose stocks are all non-negative,
because a product is only decremented after the `stock_quantity < quantity`
check fails. -/
theorem stock_nonneg_preserved (db : StockDb) (pl : OrderPlacedPayload)
    (h : allNonneg db = true) :
    allNonneg (consume_order_placed_events db pl).db = true := by
  exact deductLoop_nonneg db db pl.order_id pl.itemsOrDefault h h

/-- **C3 witness.** A table with stocks 5 and 0 stays non-negative across a
message that asks for more of product 1 than is available. -/
theorem stock_nonneg_preserved_witness :
    allNonneg [(1, 5), (2, 0)] = true ∧
    allNonneg (consume_order_placed_events [(1, 5), (2, 0)]
      { order_id := 7, items := some [⟨1, 9⟩] }).db = true := by
  exact ⟨by decide,
    stock_nonneg_preserved [(1, 5), (2, 0)] { order_id := 7, items := some [⟨1, 9⟩] }
      (by decide)⟩

/-- Splitting the loop at a prefix every item of which passes the stock
check: the loop runs the prefix, then continues on the deducted session view,
with the prefix's product ids in front of the lookup trace. -/
theorem deductLoop_append (c session : StockDb) (oid : Int) (pre rest : List Item)
    (h : sufficientStock session pre = true) :
    deductLoop c session oid (pre ++ rest) =
      { deductLoop c (applyDeductions session pre) oid rest with
        lookups := pre.map (·.product_id) ++
          (deductLoop c (applyDeductions session pre) oid rest).lookups } := by
  induction pre generalizing session with
  | nil => simp [applyDeductions]
  | cons item pre ih =>
    cases hst : getStock session item.product_id with
    | none => simp [sufficientStock, hst] at h
    | some stock =>
      by_cases hlt : stock < item.quantity
      · simp [sufficientStock, hst, hlt] at h
      · have h2 : sufficientStock
            (setStock session item.product_id (stock - item.quantity)) pre = true := by
          simpa [sufficientStock, hst, hlt] using h
        have ihr := ih _ h2
        simp [deductLoop, applyDeductions, hst, hlt, ihr]

/-- **C4.** Items are evaluated in payload order, fail-fast: when every item
of `pre` passes the stock check and `bad` is missing or lacks stock in the
session view reached after `pre`, the consumer publishes one failure event,
rolls the session back (committed table unchanged, nothing committed), and
looks up exactly the products of `pre` and `bad` — no item of `post` is ever
looked up or decremented. -/
theorem fail_fast_first_insufficient (db : StockDb) (oid : Int)
    (pre : List Item) (bad : Item) (post : List Item)
    (hpre : sufficientStock db pre = true)
    (hbad : failsAt (applyDeductions db pre) bad = true) :
    consume_order_placed_events db { order_id := oid, items := some (pre ++ bad :: post) } =
      { db := db
        published := [⟨"product.stock.deduction.failed", oid⟩]
        lookups := pre.map (·.product_id) ++ [bad.product_id]
        committed := false } := by
  have hu : consume_order_placed_events db
      { order_id := oid, items := some (pre ++ bad :: post) } =
      deductLoop db db oid (pre ++ bad :: post) := rfl
  rw [hu, deductLoop_append db db oid pre (bad :: post) hpre]
  cases hst : getStock (applyDeductions db pre) bad.product_id with
  | none => simp [deductLoop, hst]
  | some stock =>
    have hlt : stock < bad.quantity := by
      simpa [failsAt, hst] using hbad
    simp [deductLoop, hst, hlt]

/-- **C4 witness.** With stocks 5 and 1 for products 1 and 2, the order
`[3 of product 1, 5 of product 2, 1 of product 1]` aborts at the second item:
only products 1 and 2 are looked up, the third item is never examined, the
table is unchanged, one failure event is published. -/
theorem fail_fast_first_insufficient_witness :
    sufficientStock [(1, 5), (2, 1)] [⟨1, 3⟩] = true ∧
    failsAt (applyDeductions [(1, 5), (2, 1)] [⟨1, 3⟩]) ⟨2, 5⟩ = true ∧
    consume_order_placed_events [(1, 5), (2, 1)]
      { order_id := 44, items := some ([⟨1, 3⟩] ++ ⟨2, 5⟩ :: [⟨1, 1⟩]) } =
      { db := [(1, 5), (2, 1)]
        published := [⟨"product.stock.deduction.failed", 44⟩]
        lookups := [1, 2]
        committed := false } := by
  refine ⟨by decide, by decide, ?_⟩
  exact fail_fast_first_insufficient [(1, 5), (2, 1)] 44 [⟨1, 3⟩] ⟨2, 5⟩ [⟨1, 1⟩]
    (by decide) (by decide)

/-- **C6.** The deduction path is not idempotent: no deduplication by order
id or message id exists, so consuming the same `order.placed` payload twice,
with sufficient stock on both deliveries, decrements every listed product by
its requested total a second time — each product ends at its initial stock
minus twice what the items requested. -/
theorem consume_twice_double_deducts (db : StockDb) (oid : Int) (items : List Item)
    (h1 : sufficientStock db items = true)
    (h2 : sufficientStock
      (consume_order_placed_events db { order_id := oid, items := some items }).db
      items = true) :
    ∀ pid, getStock (consume_order_placed_events
        (consume_order_placed_events db { order_id := oid, items := some items }).db
        { order_id := oid, items := some items }).db pid =
      (getStock db pid).map fun s => s - 2 * totalRequested items pid := by
  intro pid
  have hu1 : consume_order_placed_events db { order_id := oid, items := some items } =
      deductLoop db db oid items := rfl
  set db1 := (consume_order_placed_events db { order_id := oid, items := some items }).db
    with hdb1
  have e1 : db1 = applyDeductions db items := by
    rw [hdb1, hu1]
    exact (deductLoop_success db db oid items h1).2.2.2
  have hu2 : consume_order_placed_events db1 { order_id := oid, items := some items } =
      deductLoop db1 db1 oid items := rfl
  have e2 : (consume_order_placed_events db1 { order_id := oid, items := some items }).db =
      applyDeductions db1 items := by
    rw [hu2]
    exact (deductLoop_success db1 db1 oid items h2).2.2.2
  rw [e2, getStock_applyDeductions db1 items h2 pid, e1,
    getStock_applyDeductions db items h1 pid]
  cases hg : getStock db pid with
  | none => simp
  | some s =>
    show some (s - totalRequested items pid - totalRequested items pid)
        = some (s - 2 * totalRequested items pid)
    exact congrArg some (by ring)

/-- **C6 witness.** Product 1 starts at stock 10; two deliveries of the same
order for 3 units leave it at 4 = 10 - 2 * 3. -/
theorem consume_twice_double_deducts_witness :
    sufficientStock [(1, 10)] [⟨1, 3⟩] = true ∧
    sufficientStock (consume_order_placed_events [(1, 10)]
      { order_id := 42, items := some [⟨1, 3⟩] }).db [⟨1, 3⟩] = true ∧
    getStock (consume_order_placed_events
      (consume_order_placed_events [(1, 10)] { order_id := 42, items := some [⟨1, 3⟩] }).db
      { order_id := 42, items := some [⟨1, 3⟩] }).db 1 = some 4 := by
  refine ⟨by decide, by decide, ?_⟩
  exact (consume_twice_double_deducts [(1, 10)] 42 [⟨1, 3⟩] (by decide) (by decide) 1).trans
    (by decide)

/-! ### Unexpected exceptions during deduction (C5)

The consumer body wraps the deduction loop and the commit in
`try/except Exception`, inside `async with message.process()`.  An unexpected
exception during deduction is caught by the `except` block (rollback, log),
so control leaves `message.process()` normally and aio_pika acknowledges the
message.  `ExnPoint` injects one unexpected exception: at the start of a loop
iteration (e.g. the query raising) or at `session.commit()`. -/

/-- Where an unexpected exception is injected while handling one message. -/
inductive ExnPoint where
  | noExn
  | atItem (k : Nat)
  | atCommit
deriving Repr, DecidableEq

/-- Observables of one full message handling including acknowledgment. -/
structure HandleOutcome where
  db : StockDb
  published : List RoutedMessage
  acked : Bool
deriving Repr, DecidableEq

/-- The deduction loop with an injected exception.  A raised exception is
caught by the `except` block: the session is rolled back (committed table
kept), nothing further is published, and — because `message.process()` then
exits without an exception — the message is acknowledged.  Every other path
also ends in acknowledgment. -/
def deductLoopExn (exn : ExnPoint) (c session : StockDb) (oid : Int) (idx : Nat) :
    List Item → HandleOutcome
  | [] =>
    if exn = .atCommit then { db := c, published := [], acked := true }
    else { db := session, published := [⟨"product.stock.deducted", oid⟩], acked := true }
  | item :: rest =>
    if exn = .atItem idx then { db := c, published := [], acked := true }
    else
      match getStock session item.product_id with
      | none =>
        { db := c, published := [⟨"product.stock.deduction.failed", oid⟩], acked := true }
      | some stock =>
        if stock < item.quantity then
          { db := c, published := [⟨"product.stock.deduction.failed", oid⟩], acked := true }
        else
          deductLoopExn exn c (setStock session item.product_id (stock - item.quantity))
            oid (idx + 1) rest

/-- One message handled end to end under an injected exception. -/
def handle_order_placed_message (exn : ExnPoint) (db : StockDb) (pl : OrderPlacedPayload) :
    HandleOutcome :=
  deductLoopExn exn db db pl.order_id 0 pl.itemsOrDefault

/-- How many iterations of the loop start (count includes the iteration that
breaks, when one does). -/
def iterCount (session : StockDb) : List Item → Nat
  | [] => 0
  | item :: rest =>
    match getStock session item.product_id with
    | none => 1
    | some stock =>
      if stock < item.quantity then 1
      else 1 + iterCount (setStock session item.product_id (stock - item.quantity)) rest

/-- Whether the injected exception point is actually reached while handling
the payload against the given table. -/
def exnTriggered (exn : ExnPoint) (db : StockDb) (pl : OrderPlacedPayload) : Bool :=
  match exn with
  | .noExn => false
  | .atCommit => sufficientStock db pl.itemsOrDefault
  | .atItem k => k < iterCount db pl.itemsOrDefault

/-- When every item passes the stock check, the loop with an injected commit
exception reaches the commit, catches the exception, rolls back and still
acknowledges. -/
theorem deductLoopExn_atCommit (c session : StockDb) (oid : Int) (idx : Nat)
    (items : List Item) (h : sufficientStock session items = true) :
    deductLoopExn .atCommit c session oid idx items =
      { db := c, published := [], acked := true } := by
  induction items generalizing session idx with
  | nil => simp [deductLoopExn]
  | cons item rest ih =>
    cases hst : getStock session item.product_id with
    | none => simp [sufficientStock, hst] at h
    | some stock =>
      by_cases hlt : stock < item.quantity
      · simp [sufficientStock, hst, hlt] at h
      · have h2 : sufficientStock
            (setStock session item.product_id (stock - item.quantity)) rest = true := by
          simpa [sufficientStock, hst, hlt] using h
        have hne : (ExnPoint.atCommit = ExnPoint.atItem idx) = False := by simp
        simp only [deductLoopExn, hne, if_false, hst, hlt, if_neg hlt]
        exact ih _ (idx + 1) h2

/-- An exception injected at an iteration the loop actually starts is caught:
rollback, nothing published, message acknowledged. -/
theorem deductLoopExn_atItem (c session : StockDb) (oid : Int) (items : List Item)
    (idx j : Nat) (hle : idx ≤ j) (hlt : j < idx + iterCount session items) :
    deductLoopExn (.atItem j) c session oid idx items =
      { db := c, published := [], acked := true } := by
  induction items generalizing session idx with
  | nil => simp [iterCount] at hlt; omega
  | cons item rest ih =>
    by_cases hj : j = idx
    · subst hj
      simp [deductLoopExn]
    · have hne : (ExnPoint.atItem j = ExnPoint.atItem idx) = False := by simp [hj]
      cases hst : getStock session item.product_id with
      | none =>
        simp [iterCount, hst] at hlt
        omega
      | some stock =>
        by_cases hq : stock < item.quantity
        · simp [iterCount, hst, hq] at hlt
          omega
        · have hlt2 : j < (idx + 1) +
              iterCount (setStock session item.product_id (stock - item.quantity)) rest := by
            simp only [iterCount, hst, if_neg hq] at hlt
            omega
          simp only [deductLoopExn, hne, if_false, hst, if_neg hq]
          exact ih _ (idx + 1) (by omega) hlt2

/-- **C5, counterexample.** An unexpected exception at `session.commit()` of
a well-stocked order is caught by the `except` block, so `message.process()`
exits cleanly and the message is acknowledged — not left unacknowledged as
the claim states. -/
theorem processing_error_acked_counterexample :
    exnTriggered .atCommit [(1, 5)] { order_id := 7, items := some [⟨1, 3⟩] } = true ∧
    (handle_order_placed_message .atCommit [(1, 5)]
      { order_id := 7, items := some [⟨1, 3⟩] }).acked = true := by
  decide

/-- **C5, amended.** When an unexpected exception occurs during deduction of
a consumed message, the consumer rolls back the session (the committed table
is unchanged and nothing is published), but the exception is swallowed by the
`except` block before the ack-on-exit context manager completes, so the
message is acknowledged and the broker does not redeliver it. -/
theorem processing_error_rolls_back_and_acks (exn : ExnPoint) (db : StockDb)
    (pl : OrderPlacedPayload) (h : exnTriggered exn db pl = true) :
    handle_order_placed_message exn db pl =
      { db := db, published := [], acked := true } := by
  cases exn with
  | noExn => simp [exnTriggered] at h
  | atCommit =>
    have hs : sufficientStock db pl.itemsOrDefault = true := by
      simpa [exnTriggered] using h
    exact deductLoopExn_atCommit db db pl.order_id 0 pl.itemsOrDefault hs
  | atItem k =>
    have hk : k < iterCount db pl.itemsOrDefault := by
      simpa [exnTriggered] using h
    exact deductLoopExn_atItem db db pl.order_id pl.itemsOrDefault 0 k (Nat.zero_le k)
      (by omega)

/-- **C5 witness (amended claim).** An exception at the first loop iteration
of an order for product 2: table unchanged, nothing published, message
acknowledged. -/
theorem processing_error_rolls_back_and_acks_witness :
    exnTriggered (.atItem 0) [(2, 4)] { order_id := 9, items := some [⟨2, 1⟩] } = true ∧
    handle_order_placed_message (.atItem 0) [(2, 4)]
      { order_id := 9, items := some [⟨2, 1⟩] } =
      { db := [(2, 4)], published := [], acked := true } := by
  exact ⟨by decide,
    processing_error_rolls_back_and_acks (.atItem 0) [(2, 4)]
      { order_id := 9, items := some [⟨2, 1⟩] } (by decide)⟩

/-- The retry loop runs at most as many attempts as it has iterations left. -/
theorem connectLoop_attempts_le (succeeds : Nat → Bool) (start n : Nat) :
    (connectLoop succeeds start n).attempts ≤ n := by
  induction n generalizing start with
  | zero => simp [connectLoop]
  | succ n ih =>
    simp only [connectLoop]
    by_cases h : succeeds start = true
    · rw [if_pos h]
      exact Nat.succ_le_succ (Nat.zero_le n)
    · rw [if_neg h]
      exact Nat.succ_le_succ (ih (start + 1))

/-- When every remaining attempt fails, the loop runs them all, sleeps five
seconds after each, declares no exchange and reports failure. -/
theorem connectLoop_all_fail (succeeds : Nat → Bool) (start n : Nat)
    (h : ∀ i, i < n → succeeds (start + i) = false) :
    connectLoop succeeds start n =
      { success := false, attempts := n, delays := List.replicate n 5, exchange := none } := by
  induction n generalizing start with
  | zero => simp [connectLoop]
  | succ n ih =>
    have h0 : succeeds start = false := by simpa using h 0 (Nat.succ_pos n)
    have hrec := ih (start + 1) fun i hi => by
      have := h (i + 1) (by omega)
      rwa [show start + (i + 1) = start + 1 + i by omega] at this
    simp [connectLoop, h0, hrec, List.replicate_succ]

/-- The loop stops at the first successful attempt: with `j` failures before
success, it reports success on attempt `j + 1`, slept `j` times, and declared
the durable direct exchange `"ecomm_events"`. -/
theorem connectLoop_first_success (succeeds : Nat → Bool) (start n j : Nat)
    (hj : j < n) (hs : succeeds (start + j) = true)
    (hf : ∀ i, i < j → succeeds (start + i) = false) :
    connectLoop succeeds start n =
      { success := true, attempts := j + 1, delays := List.replicate j 5,
        exchange := some { name := "ecomm_events", direct := true, durable := true } } := by
  induction j generalizing start n with
  | zero =>
    cases n with
    | zero => omega
    | succ n =>
      have hs0 : succeeds start = true := by simpa using hs
      simp [connectLoop, hs0]
  | succ j ih =>
    cases n with
    | zero => omega
    | succ n =>
      have h0 : succeeds start = false := by simpa using hf 0 (Nat.succ_pos j)
      have hs2 : succeeds (start + 1 + j) = true := by
        rwa [show start + 1 + j = start + (j + 1) by omega]
      have hf2 : ∀ i, i < j → succeeds (start + 1 + i) = false := fun i hi => by
        have := hf (i + 1) (by omega)
        rwa [show start + (i + 1) = start + 1 + i by omega] at this
      have hrec := ih (start + 1) n (by omega) hs2 hf2
      simp [connectLoop, h0, hrec, List.replicate_succ]

/-- **C8.** `connect_to_rabbitmq` makes at most ten connection attempts with
a fixed five-second sleep after each failure; if all ten attempts fail it
reports failure (returns `False`) after exactly ten attempts, and on the
first successful attempt it declares the durable, direct-routed exchange
`"ecomm_events"` and reports success. -/
theorem connect_to_rabbitmq_bounded_retry (succeeds : Nat → Bool) :
    (connect_to_rabbitmq succeeds).attempts ≤ 10 ∧
    ((∀ i, i < 10 → succeeds i = false) →
      connect_to_rabbitmq succeeds =
        { success := false, attempts := 10, delays := List.replicate 10 5,
          exchange := none }) ∧
    (∀ j, j < 10 → succeeds j = true → (∀ i, i < j → succeeds i = false) →
      connect_to_rabbitmq succeeds =
        { success := true, attempts := j + 1, delays := List.replicate j 5,
          exchange := some { name := "ecomm_events", direct := true, durable := true } }) := by
  refine ⟨connectLoop_attempts_le succeeds 0 10, fun h => ?_, fun j hj hs hf => ?_⟩
  · exact connectLoop_all_fail succeeds 0 10 fun i hi => by simpa using h i hi
  · exact connectLoop_first_success succeeds 0 10 j hj (by simpa using hs)
      fun i hi => by simpa using hf i hi

/-- **C8 witness.** A broker that answers on the fourth attempt: success
after four attempts, three sleeps, exchange declared; a broker that never
answers: failure after exactly ten attempts. -/
theorem connect_to_rabbitmq_bounded_retry_witness :
    connect_to_rabbitmq (fun i => decide (i = 3)) =
      { success := true, attempts := 4, delays := List.replicate 3 5,
        exchange := some { name := "ecomm_events", direct := true, durable := true } } ∧
    connect_to_rabbitmq (fun _ => false) =
      { success := false, attempts := 10, delays := List.replicate 10 5,
        exchange := none } := by
  constructor
  · exact (connect_to_rabbitmq_bounded_retry (fun i => decide (i = 3))).2.2 3 (by decide)
      (by decide) (by decide)
  · exact (connect_to_rabbitmq_bounded_retry (fun _ => false)).2.1 (by decide)
